import Mathlib

/-!
Verification of the PC814 zero-crossing detection library (PC814.c,
PC814_ThreePhase.c) against its natural-language specification.

Shallow embedding conventions:
* C `uint32_t` values are `Nat`, reduced by `% 2^32` (`u32`) at every write
  that can overflow in C.  The multiplication `period_ticks * 1000000UL` is
  performed in 32-bit `unsigned long` arithmetic on the target platform
  (ARM Cortex-M), so the product is reduced mod 2^32 before the division;
  the quotient then already fits the `uint32_t` store.
* C `float` quantities (tolerances, angles, frequency statistics) are
  modelled exactly over `ℚ`; the operations involved (abs, subtraction,
  comparison, min) are order-faithful.  IEEE infinity from `x/0.0f` is not
  modelled; rational division by zero yields 0 and no claim depends on a
  field that can hold it.
* The hardware port layer (function pointers) is replaced by explicit
  per-call inputs (`CaptureInputs`); NULL-pointer guards have no
  counterpart in the embedding and the `initialized` flag is kept.
* The unguarded C division `1000000UL / period_us` in
  `pc814_process_capture` is fallible (undefined behavior when
  `period_us == 0`), so the embedded function returns `Option`, with
  `none` marking the division-by-zero site being reached.
* The registered callback is not modelled (no listener installed); it does
  not modify the handle state relevant to any theorem below.
-/

/-- Status codes of PC814.h. -/
inductive pc814_status_t
  | PC814_OK
  | PC814_ERROR
  | PC814_NOT_INITIALIZED
  | PC814_INVALID_PARAM
deriving DecidableEq, Repr

/-- Zero-crossing data structure `pc814_data_t` (PC814.h). -/
structure pc814_data_t where
  period_us : Nat
  frequency_hz : Nat
  timestamp_us : Nat
  count : Nat
  valid : Bool
deriving DecidableEq, Repr

/-- Statistics structure `pc814_statistics_t` (PC814.h); the three `float`
frequency fields are modelled over `ℚ`. -/
structure pc814_statistics_t where
  total_zc_count : Nat
  valid_zc_count : Nat
  invalid_zc_count : Nat
  min_period_us : Nat
  max_period_us : Nat
  avg_period_us : Nat
  min_frequency_hz : ℚ
  max_frequency_hz : ℚ
  avg_frequency_hz : ℚ
deriving DecidableEq, Repr

/-- Handle structure `pc814_handle_t` (PC814.h), with the port pointer,
pull/edge configuration and callback omitted (hardware layer). -/
structure pc814_handle_t where
  data : pc814_data_t
  last_capture_time : Nat
  last_capture_value : Nat
  initialized : Bool
  expected_frequency : Nat
  frequency_tolerance : ℚ
  statistics : pc814_statistics_t
  period_sum : Nat
  period_count : Nat
deriving DecidableEq, Repr

/-- Per-call hardware reads consumed by `pc814_process_capture`:
`timer_get_capture_value()`, `timer_get_frequency()`, `get_time_us()`. -/
structure CaptureInputs where
  capture_value : Nat
  timer_freq : Nat
  now_us : Nat
deriving DecidableEq, Repr

/-- Reduction modulo the 32-bit counter width (C `uint32_t` wraparound). -/
def u32 (n : Nat) : Nat := n % 4294967296

/-- Tick delta of PC814.c lines 102-107: `current - previous` when
`current > previous`, else `(0xFFFFFFFF - previous) + current`. -/
def tickDelta (previous current : Nat) : Nat :=
  if current > previous then current - previous
  else (4294967295 - previous) + current

/-- Spec-side modular (wraparound-safe) subtraction over the 32-bit counter
width: `(current - previous) mod 2^32`. -/
def modularDelta32 (previous current : Nat) : Nat :=
  (current + 4294967296 - previous) % 4294967296

/-- C cast `(int32_t)` of a `uint32_t` value. -/
def toInt32 (n : Nat) : Int :=
  if n % 4294967296 < 2147483648 then ((n % 4294967296 : Nat) : Int)
  else ((n % 4294967296 : Nat) : Int) - 4294967296

/-- Embedding of `validate_frequency` (PC814.c lines 25-35). -/
def validate_frequency (freq expected : Nat) (tolerance : ℚ) : Bool :=
  if freq = 0 ∨ expected = 0 then false
  else
    let diff : ℚ := ((|toInt32 freq - toInt32 expected| : Int) : ℚ)
    let percent : ℚ := diff / (expected : ℚ) * 100
    decide (percent ≤ tolerance)

/-- Statistics update of `pc814_process_capture` (PC814.c lines 126-158).
Returns the new statistics together with the new `period_sum` and
`period_count` handle fields. -/
def updateStatistics (s : pc814_statistics_t)
    (period_sum period_count period_us freq_hz : Nat) (freq_valid : Bool) :
    pc814_statistics_t × Nat × Nat :=
  if freq_valid then
    let minP := if s.min_period_us = 0 ∨ period_us < s.min_period_us then period_us
                else s.min_period_us
    let maxP := if period_us > s.max_period_us then period_us else s.max_period_us
    let ff : ℚ := (freq_hz : ℚ)
    let minF := if s.min_frequency_hz = 0 ∨ ff < s.min_frequency_hz then ff
                else s.min_frequency_hz
    let maxF := if ff > s.max_frequency_hz then ff else s.max_frequency_hz
    let sum1 := u32 (period_sum + period_us)
    let cnt1 := u32 (period_count + 1)
    let avgP := if cnt1 > 0 then sum1 / cnt1 else s.avg_period_us
    let avgF := if cnt1 > 0 then (1000000 : ℚ) / ((sum1 / cnt1 : Nat) : ℚ)
                else s.avg_frequency_hz
    ({ total_zc_count := u32 (s.total_zc_count + 1),
       valid_zc_count := u32 (s.valid_zc_count + 1),
       invalid_zc_count := s.invalid_zc_count,
       min_period_us := minP, max_period_us := maxP, avg_period_us := avgP,
       min_frequency_hz := minF, max_frequency_hz := maxF,
       avg_frequency_hz := avgF },
     sum1, cnt1)
  else
    ({ s with total_zc_count := u32 (s.total_zc_count + 1),
              invalid_zc_count := u32 (s.invalid_zc_count + 1) },
     period_sum, period_count)

/-- Embedding of `pc814_process_capture` (PC814.c lines 74-170).  The
result is `none` exactly when the unguarded division
`1000000UL / period_us` is reached with `period_us == 0` (C undefined
behavior); otherwise `some (status, new handle)`. -/
def pc814_process_capture (h : pc814_handle_t) (i : CaptureInputs) :
    Option (pc814_status_t × pc814_handle_t) :=
  if h.initialized = false then
    some (pc814_status_t.PC814_NOT_INITIALIZED, h)
  else if i.capture_value = 0 ∨ i.timer_freq = 0 then
    some (pc814_status_t.PC814_ERROR, h)
  else if h.last_capture_value ≠ 0 then
    let period_ticks := tickDelta h.last_capture_value i.capture_value
    let period_us := u32 (period_ticks * 1000000) / i.timer_freq
    if period_us = 0 then
      none
    else
      let freq_hz := 1000000 / period_us
      let freq_valid := validate_frequency freq_hz h.expected_frequency
                          h.frequency_tolerance
      let data1 : pc814_data_t :=
        { period_us := period_us, frequency_hz := freq_hz,
          timestamp_us := i.now_us, count := u32 (h.data.count + 1),
          valid := freq_valid }
      let su := updateStatistics h.statistics h.period_sum h.period_count
                  period_us freq_hz freq_valid
      some (pc814_status_t.PC814_OK,
        { h with data := data1, statistics := su.1, period_sum := su.2.1,
                 period_count := su.2.2,
                 last_capture_value := i.capture_value,
                 last_capture_time := i.now_us })
  else
    some (pc814_status_t.PC814_OK,
      { h with last_capture_value := i.capture_value,
               last_capture_time := i.now_us })

/-- Sequence of capture calls; `none` as soon as one call hits the
division-by-zero site. -/
def pc814_process_seq (h : pc814_handle_t) :
    List CaptureInputs → Option pc814_handle_t
  | [] => some h
  | i :: is =>
    match pc814_process_capture h i with
    | none => none
    | some (_, h1) => pc814_process_seq h1 is

/-- Handle state established by `pc814_init` (PC814.c lines 38-71):
zeroed data/statistics, defaults 50 Hz and 5 %, `initialized` true. -/
def pc814InitHandle : pc814_handle_t :=
  { data := { period_us := 0, frequency_hz := 0, timestamp_us := 0,
              count := 0, valid := false },
    last_capture_time := 0, last_capture_value := 0, initialized := true,
    expected_frequency := 50, frequency_tolerance := 5,
    statistics := { total_zc_count := 0, valid_zc_count := 0,
                    invalid_zc_count := 0, min_period_us := 0,
                    max_period_us := 0, avg_period_us := 0,
                    min_frequency_hz := 0, max_frequency_hz := 0,
                    avg_frequency_hz := 0 },
    period_sum := 0, period_count := 0 }

/-- Embedding of `pc814_set_expected_frequency` (PC814.c lines 231-236). -/
def pc814_set_expected_frequency (h : pc814_handle_t) (freq : Nat) :
    pc814_handle_t :=
  if freq = 50 ∨ freq = 60 then { h with expected_frequency := freq } else h

/-- Embedding of `pc814_set_frequency_tolerance` (PC814.c lines 239-244). -/
def pc814_set_frequency_tolerance (h : pc814_handle_t) (tolerance : ℚ) :
    pc814_handle_t :=
  if 0 < tolerance ∧ tolerance ≤ 50 then
    { h with frequency_tolerance := tolerance }
  else h

/-- Configuration invariant: expected frequency is 50 or 60 Hz, tolerance
lies in (0, 50]. -/
def configInvariant (h : pc814_handle_t) : Prop :=
  (h.expected_frequency = 50 ∨ h.expected_frequency = 60) ∧
    0 < h.frequency_tolerance ∧ h.frequency_tolerance ≤ 50

instance (h : pc814_handle_t) : Decidable (configInvariant h) :=
  decidable_of_iff
    ((h.expected_frequency = 50 ∨ h.expected_frequency = 60) ∧
      0 < h.frequency_tolerance ∧ h.frequency_tolerance ≤ 50) Iff.rfl

/-- Phase sequence verdicts (PC814_ThreePhase.h). -/
inductive pc814_sequence_t
  | PC814_SEQUENCE_UNKNOWN
  | PC814_SEQUENCE_ABC
  | PC814_SEQUENCE_ACB
  | PC814_SEQUENCE_ERROR
deriving DecidableEq, Repr

/-- Timestamp difference of `calculate_phase_angle`
(PC814_ThreePhase.c lines 31-39): plain subtraction when `time2 ≥ time1`,
else `(0xFFFFFFFF - time1) + time2 + 1`. -/
def pc814_threephase_time_diff (time1 time2 : Nat) : Nat :=
  if time2 ≥ time1 then time2 - time1
  else (4294967295 - time1) + time2 + 1

/-- Embedding of `calculate_phase_angle` (PC814_ThreePhase.c lines 25-56).
The two post-hoc normalization branches of the C code are unreachable here
because `time_diff % period_us < period_us` already puts the angle in
`[0, 360)`. -/
def calculate_phase_angle (time1 time2 period_us : Nat) : ℚ :=
  if period_us = 0 then 0
  else
    let td := pc814_threephase_time_diff time1 time2 % period_us
    ((td : ℚ) / (period_us : ℚ)) * 360

/-- Embedding of `is_angle_120` (PC814_ThreePhase.c lines 59-70). -/
def is_angle_120 (angle tolerance : ℚ) : Bool :=
  let diff120 := |angle - 120|
  let d := |angle - 240|
  let diff240 := if d > 180 then 360 - d else d
  decide (diff120 ≤ tolerance) || decide (diff240 ≤ tolerance)

/-- Embedding of `is_angle_240` (PC814_ThreePhase.c lines 73-84). -/
def is_angle_240 (angle tolerance : ℚ) : Bool :=
  let d := |angle - 240|
  let diff240 := if d > 180 then 360 - d else d
  let diff120 := |angle - 120|
  decide (diff240 ≤ tolerance) && decide (tolerance < diff120)

/-- Embedding of `pc814_threephase_detect_sequence`
(PC814_ThreePhase.c lines 156-195), as a function of the three stored
angles and the stored tolerance (the NULL / invalid-relationship early
return is the caller-side gate). -/
def pc814_threephase_detect_sequence (ab_angle bc_angle ca_angle tolerance : ℚ) :
    pc814_sequence_t :=
  let ab120 := is_angle_120 ab_angle tolerance
  let bc120 := is_angle_120 bc_angle tolerance
  let ca120 := is_angle_120 ca_angle tolerance
  let ab240 := is_angle_240 ab_angle tolerance
  let bc240 := is_angle_240 bc_angle tolerance
  if ab120 && bc120 && ca120 then pc814_sequence_t.PC814_SEQUENCE_ABC
  else if (ab240 || bc240) && ca120 then pc814_sequence_t.PC814_SEQUENCE_ACB
  else if ab240 && bc240 then pc814_sequence_t.PC814_SEQUENCE_ACB
  else pc814_sequence_t.PC814_SEQUENCE_ERROR

/-- Embedding of `pc814_threephase_get_swap_recommendation`
(PC814_ThreePhase.c lines 283-330), as a function of the relationship
validity flag, the stored sequence, the three stored angles and
tolerance.  Result: status and the `(swap_ab, swap_bc, swap_ca)` flags. -/
def pc814_threephase_get_swap_recommendation (valid : Bool)
    (seq : pc814_sequence_t) (ab_angle bc_angle ca_angle tolerance : ℚ) :
    pc814_status_t × Bool × Bool × Bool :=
  if valid = false then (pc814_status_t.PC814_ERROR, false, false, false)
  else if seq = pc814_sequence_t.PC814_SEQUENCE_ACB then
    (pc814_status_t.PC814_OK, false, true, false)
  else if seq = pc814_sequence_t.PC814_SEQUENCE_ERROR then
    if is_angle_120 ab_angle tolerance && is_angle_120 ca_angle tolerance then
      (pc814_status_t.PC814_OK, false, true, false)
    else if is_angle_120 bc_angle tolerance && is_angle_120 ca_angle tolerance then
      (pc814_status_t.PC814_OK, true, false, false)
    else if is_angle_120 ab_angle tolerance && is_angle_120 bc_angle tolerance then
      (pc814_status_t.PC814_OK, false, false, true)
    else (pc814_status_t.PC814_OK, false, false, false)
  else (pc814_status_t.PC814_OK, false, false, false)

/-- Embedding of `pc814_threephase_get_imbalance`
(PC814_ThreePhase.c lines 401-423). -/
def pc814_threephase_get_imbalance (valid : Bool) (ab_angle bc_angle ca_angle : ℚ) : ℚ :=
  if valid = false then -1
  else
    let ab_dev := |ab_angle - 120|
    let bc_dev := |bc_angle - 120|
    let ca_dev := |ca_angle - 120|
    let avg_dev := (ab_dev + bc_dev + ca_dev) / 3
    avg_dev / 120 * 100

/-- Spec-side predicate `near_120` (spec section 4.3): within tolerance of
120°, or wrapped distance to 240° within tolerance. -/
def near120spec (angle tolerance : ℚ) : Prop :=
  |angle - 120| ≤ tolerance ∨
    min (|angle - 240|) (360 - |angle - 240|) ≤ tolerance

instance (angle tolerance : ℚ) : Decidable (near120spec angle tolerance) :=
  decidable_of_iff
    (|angle - 120| ≤ tolerance ∨
      min (|angle - 240|) (360 - |angle - 240|) ≤ tolerance) Iff.rfl

/-- Spec-side predicate `near_240` (spec section 4.3): wrapped distance to
240° within tolerance and plain distance to 120° above tolerance. -/
def near240spec (angle tolerance : ℚ) : Prop :=
  min (|angle - 240|) (360 - |angle - 240|) ≤ tolerance ∧
    tolerance < |angle - 120|

instance (angle tolerance : ℚ) : Decidable (near240spec angle tolerance) :=
  decidable_of_iff
    (min (|angle - 240|) (360 - |angle - 240|) ≤ tolerance ∧
      tolerance < |angle - 120|) Iff.rfl

/-- Period recorded as a valid sample by one capture call, if any: `some
period_us` exactly when the call forms a tick delta whose period passes
frequency validation (mirrors the control flow of
`pc814_process_capture`). -/
def captureValidPeriod (h : pc814_handle_t) (i : CaptureInputs) : Option Nat :=
  if h.initialized = true ∧ i.capture_value ≠ 0 ∧ i.timer_freq ≠ 0 ∧
      h.last_capture_value ≠ 0 then
    let p := u32 (tickDelta h.last_capture_value i.capture_value * 1000000) /
      i.timer_freq
    if p ≠ 0 ∧ validate_frequency (1000000 / p) h.expected_frequency
        h.frequency_tolerance = true then some p
    else none
  else none

/-- Periods of all valid samples produced along a capture sequence. -/
def validPeriodsSeq : pc814_handle_t → List CaptureInputs → List Nat
  | _, [] => []
  | h, i :: is =>
    match pc814_process_capture h i with
    | none => []
    | some (_, h1) => (captureValidPeriod h i).toList ++ validPeriodsSeq h1 is

/-- Coupling invariant between a handle's statistics fields and the list
`ps` of periods of valid samples so far (`ninv` = number of invalid
samples so far), valid while no `uint32_t` statistics field has
wrapped. -/
def GoodState (h : pc814_handle_t) (ps : List Nat) (ninv : Nat) : Prop :=
  h.statistics.valid_zc_count = ps.length ∧
  h.statistics.invalid_zc_count = ninv ∧
  h.statistics.total_zc_count = ps.length + ninv ∧
  h.period_count = ps.length ∧
  h.period_sum = ps.sum ∧
  h.statistics.avg_period_us =
    (if ps.length = 0 then 0 else ps.sum / ps.length) ∧
  (ps = [] → h.statistics.min_period_us = 0 ∧ h.statistics.max_period_us = 0) ∧
  (∀ p ∈ ps, h.statistics.min_period_us ≤ p ∧ p ≤ h.statistics.max_period_us) ∧
  (ps ≠ [] → h.statistics.min_period_us ∈ ps ∧ h.statistics.max_period_us ∈ ps) ∧
  (∀ p ∈ ps, 1 ≤ p)

/-- Capture input number `k` of the C7 overflow scenario: raw counter
`1 + 20k` on a 1 kHz counter, so every delta is 20 ticks = 20000 µs
(a valid 50 Hz half-period at the default configuration). -/
def c7ev (k : Nat) : CaptureInputs :=
  { capture_value := 1 + 20 * k, timer_freq := 1000, now_us := 0 }

/-- Inputs `c7ev s, c7ev (s+1), ..., c7ev (s+b-1)`. -/
def c7evs : Nat → Nat → List CaptureInputs
  | _, 0 => []
  | s, b + 1 => c7ev s :: c7evs (s + 1) b

/-- Handle state after the first capture and `m ≥ 1` further captures of
the C7 overflow scenario: every delta is a valid 20000 µs period, so
`period_sum` is `20000·m mod 2^32`. -/
def c7H (m : Nat) : pc814_handle_t :=
  { data := { period_us := 20000, frequency_hz := 50, timestamp_us := 0,
              count := m, valid := true },
    last_capture_time := 0, last_capture_value := 1 + 20 * m,
    initialized := true, expected_frequency := 50, frequency_tolerance := 5,
    statistics := { total_zc_count := m, valid_zc_count := m,
                    invalid_zc_count := 0, min_period_us := 20000,
                    max_period_us := 20000,
                    avg_period_us := 20000 * m % 4294967296 / m,
                    min_frequency_hz := 50, max_frequency_hz := 50,
                    avg_frequency_hz :=
                      (1000000 : ℚ) / ((20000 * m % 4294967296 / m : Nat) : ℚ) },
    period_sum := 20000 * m % 4294967296, period_count := m }

/-- Two-call capture sequence used by the C7 witness: one valid 20000 µs
sample on the default configuration. -/
def c7wSeq : List CaptureInputs := [c7ev 0, c7ev 1]

-- THEOREMS

/-- Claim C1 (code_bug evidence): the spec says a zero derived `period_us`
makes the call fail with a `DegenerateInterval` condition instead of
dividing by zero, but `pc814_process_capture` has no such guard.  On an
initialized channel whose previous raw value is 1, a capture of 2 with a
2 MHz counter gives `period_ticks = 1` and
`period_us = 1000000/2000000 = 0`, and the code then executes
`1000000UL / 0` (undefined behavior, modelled as `none`). -/
theorem c1_division_by_zero_reached :
    pc814_process_seq pc814InitHandle
      [{ capture_value := 1, timer_freq := 2000000, now_us := 0 },
       { capture_value := 2, timer_freq := 2000000, now_us := 0 }] = none := by
  rfl

/-- Claim C2 (code_bug evidence): the tick delta of
`pc814_process_capture` for previous = 0xFFFFFFF0, current = 0x00000010 is
31 (0x1F), not the modular (wraparound-safe) difference 32 (0x20) that the
spec states: the C overflow branch `(0xFFFFFFFF - previous) + current` is
one less than subtraction modulo 2^32. -/
theorem c2_tick_delta_off_by_one :
    tickDelta 4294967280 16 = 31 ∧ modularDelta32 4294967280 16 = 32 ∧
      tickDelta 4294967280 16 ≠ modularDelta32 4294967280 16 := by
  decide

/-- Claim C5 (code_bug evidence): the timestamp difference of
`calculate_phase_angle` and the tick delta of `pc814_process_capture`
disagree at previous = 0xFFFFFFF0, current = 0x00000010: the three-phase
code adds the `+ 1` that makes the subtraction truly modular (giving 32),
the per-channel code does not (giving 31). -/
theorem c5_time_diff_ne_tick_delta :
    pc814_threephase_time_diff 4294967280 16 = 32 ∧
      tickDelta 4294967280 16 = 31 ∧
      pc814_threephase_time_diff 4294967280 16 ≠ tickDelta 4294967280 16 := by
  decide

/-- Claim C9: on an initialized channel, a zero raw capture value or a
zero counter frequency makes `pc814_process_capture` return `PC814_ERROR`
with the handle completely unchanged — no sample, no data field, no
statistics counter, no last-capture value is mutated. -/
theorem c9_zero_input_rejected_unchanged (h : pc814_handle_t)
    (i : CaptureInputs) (hinit : h.initialized = true)
    (hz : i.capture_value = 0 ∨ i.timer_freq = 0) :
    pc814_process_capture h i = some (pc814_status_t.PC814_ERROR, h) := by
  simp [pc814_process_capture, hinit, hz]

/-- Witness for C9: concrete rejected call on a freshly initialized
handle. -/
theorem c9_zero_input_rejected_unchanged_witness :
    pc814_process_capture pc814InitHandle
        { capture_value := 0, timer_freq := 5, now_us := 7 } =
      some (pc814_status_t.PC814_ERROR, pc814InitHandle) :=
  c9_zero_input_rejected_unchanged pc814InitHandle
    { capture_value := 0, timer_freq := 5, now_us := 7 } rfl (Or.inl rfl)

/-- Claim C10: the configuration invariant (expected frequency in
{50, 60}, tolerance in (0, 50]) is established by `pc814_init` (defaults
50 Hz, 5 %), preserved by both setters, left untouched by out-of-range
setter arguments (which silently change nothing and return no error,
the setters being `void`), and never modified by capture processing. -/
theorem c10_config_invariant :
    configInvariant pc814InitHandle ∧
    (∀ (h : pc814_handle_t) (f : Nat), configInvariant h →
      configInvariant (pc814_set_expected_frequency h f)) ∧
    (∀ (h : pc814_handle_t) (f : Nat), ¬ (f = 50 ∨ f = 60) →
      pc814_set_expected_frequency h f = h) ∧
    (∀ (h : pc814_handle_t) (t : ℚ), configInvariant h →
      configInvariant (pc814_set_frequency_tolerance h t)) ∧
    (∀ (h : pc814_handle_t) (t : ℚ), ¬ (0 < t ∧ t ≤ 50) →
      pc814_set_frequency_tolerance h t = h) ∧
    (∀ (h : pc814_handle_t) (i : CaptureInputs) (st : pc814_status_t)
      (h' : pc814_handle_t),
      pc814_process_capture h i = some (st, h') →
      h'.expected_frequency = h.expected_frequency ∧
        h'.frequency_tolerance = h.frequency_tolerance) := by
  refine ⟨by decide, ?_, ?_, ?_, ?_, ?_⟩
  · intro h f hc
    unfold configInvariant pc814_set_expected_frequency at *
    split_ifs with hf
    · exact ⟨hf, hc.2⟩
    · exact hc
  · intro h f hf
    simp [pc814_set_expected_frequency, hf]
  · intro h t hc
    unfold configInvariant pc814_set_frequency_tolerance at *
    split_ifs with ht
    · exact ⟨hc.1, ht⟩
    · exact hc
  · intro h t ht
    simp [pc814_set_frequency_tolerance, ht]
  · intro h i st h' hr
    unfold pc814_process_capture at hr
    split_ifs at hr <;> simp_all
    · obtain ⟨-, -, rfl⟩ := hr
      exact ⟨rfl, rfl⟩
    · obtain ⟨-, rfl⟩ := hr
      exact ⟨rfl, rfl⟩

/-- Witness for C10: the invariant survives an out-of-range setter call on
the freshly initialized handle. -/
theorem c10_config_invariant_witness :
    configInvariant (pc814_set_expected_frequency pc814InitHandle 70) :=
  c10_config_invariant.2.1 pc814InitHandle 70 (by decide)

/-- Helper: the `(int32_t)` cast is the identity below 2^31. -/
theorem toInt32_of_lt (n : Nat) (hn : n < 2147483648) : toInt32 n = (n : Int) := by
  unfold toInt32
  rw [Nat.mod_eq_of_lt (by omega), if_pos hn]

/-- Claim C6: a sample is valid iff both frequencies are non-zero and the
percentage deviation `|frequency_hz - expected_hz| / expected_hz * 100`
does not exceed the tolerance (frequencies below 2^31, so the C
`(int32_t)` casts are value-preserving). -/
theorem c6_validate_frequency_iff (freq expected : Nat) (tolerance : ℚ)
    (hf : freq < 2147483648) (he : expected < 2147483648) :
    validate_frequency freq expected tolerance = true ↔
      (freq ≠ 0 ∧ expected ≠ 0 ∧
        |(freq : ℚ) - (expected : ℚ)| / (expected : ℚ) * 100 ≤ tolerance) := by
  unfold validate_frequency
  rw [toInt32_of_lt freq hf, toInt32_of_lt expected he]
  by_cases h0 : freq = 0 ∨ expected = 0
  · rw [if_pos h0]
    rcases h0 with h | h <;> simp [h]
  · rw [if_neg h0]
    push_neg at h0
    have hcast : ((|(freq : Int) - (expected : Int)| : Int) : ℚ) =
        |(freq : ℚ) - (expected : ℚ)| := by
      push_cast
      ring_nf
    simp only [decide_eq_true_eq, hcast]
    simp [h0.1, h0.2]

/-- Witness for C6: expected 50 Hz, tolerance 5 %: a computed 52 Hz (4 %
deviation) is valid, a computed 54 Hz (8 % deviation) is not. -/
theorem c6_validate_frequency_iff_witness :
    validate_frequency 52 50 5 = true ∧ validate_frequency 54 50 5 = false := by
  constructor
  · exact (c6_validate_frequency_iff 52 50 5 (by norm_num) (by norm_num)).mpr
      (by norm_num)
  · have h := c6_validate_frequency_iff 54 50 5 (by norm_num) (by norm_num)
    rw [← Bool.not_eq_true, h]
    norm_num

/-- Claim C8: with a valid relationship the imbalance is
`mean(|ab-120|, |bc-120|, |ca-120|) / 120 * 100`; angles (130, 120, 110)
give 50/9 ≈ 5.56 %; without a valid relationship the sentinel -1 (a
negative value) is returned. -/
theorem c8_imbalance :
    (∀ ab bc ca : ℚ, pc814_threephase_get_imbalance true ab bc ca =
      ((|ab - 120| + |bc - 120| + |ca - 120|) / 3) / 120 * 100) ∧
    pc814_threephase_get_imbalance true 130 120 110 = 50 / 9 ∧
    (∀ ab bc ca : ℚ, pc814_threephase_get_imbalance false ab bc ca = -1 ∧
      pc814_threephase_get_imbalance false ab bc ca < 0) := by
  refine ⟨fun ab bc ca => rfl, ?_, fun ab bc ca => ⟨rfl, by norm_num [pc814_threephase_get_imbalance]⟩⟩
  unfold pc814_threephase_get_imbalance
  rw [show |(130 : ℚ) - 120| = 10 by rw [abs_of_nonneg] <;> norm_num,
      show |(120 : ℚ) - 120| = 0 by rw [abs_of_nonneg] <;> norm_num,
      show |(110 : ℚ) - 120| = 10 by rw [abs_of_nonpos] <;> norm_num]
  norm_num

/-- Helper: the C wrapped distance computation equals
`min d (360 - d)`. -/
theorem wrap240_eq_min (d : ℚ) :
    (if d > 180 then 360 - d else d) = min d (360 - d) := by
  split_ifs with h
  · exact (min_eq_right (by linarith)).symm
  · exact (min_eq_left (by linarith)).symm

/-- Helper: `is_angle_120` agrees with the spec predicate `near_120`. -/
theorem is_angle_120_iff (angle tolerance : ℚ) :
    is_angle_120 angle tolerance = true ↔ near120spec angle tolerance := by
  simp only [is_angle_120, near120spec, Bool.or_eq_true, decide_eq_true_eq,
    wrap240_eq_min]

/-- Helper: `is_angle_240` agrees with the spec predicate `near_240`. -/
theorem is_angle_240_iff (angle tolerance : ℚ) :
    is_angle_240 angle tolerance = true ↔ near240spec angle tolerance := by
  simp only [is_angle_240, near240spec, Bool.and_eq_true, decide_eq_true_eq,
    wrap240_eq_min]

/-- Claim C3: the sequence classifier follows the first-match decision
order: Correct (ABC) when `near_120` holds for all three angles, Reversed
(ACB) when `(near_240(ab) ∨ near_240(bc)) ∧ near_120(ca)`, Reversed when
`near_240(ab) ∧ near_240(bc)`, otherwise Error — with `near_120(a)` being
`|a-120| ≤ tol ∨ min(|a-240|, 360-|a-240|) ≤ tol`. -/
theorem c3_detect_sequence (ab bc ca tolerance : ℚ) :
    pc814_threephase_detect_sequence ab bc ca tolerance =
      if near120spec ab tolerance ∧ near120spec bc tolerance ∧
          near120spec ca tolerance then
        pc814_sequence_t.PC814_SEQUENCE_ABC
      else if (near240spec ab tolerance ∨ near240spec bc tolerance) ∧
          near120spec ca tolerance then
        pc814_sequence_t.PC814_SEQUENCE_ACB
      else if near240spec ab tolerance ∧ near240spec bc tolerance then
        pc814_sequence_t.PC814_SEQUENCE_ACB
      else pc814_sequence_t.PC814_SEQUENCE_ERROR := by
  unfold pc814_threephase_detect_sequence
  by_cases h1 : near120spec ab tolerance <;>
    by_cases h2 : near120spec bc tolerance <;>
    by_cases h3 : near120spec ca tolerance <;>
    by_cases h4 : near240spec ab tolerance <;>
    by_cases h5 : near240spec bc tolerance <;>
    simp [is_angle_120_iff, is_angle_240_iff, h1, h2, h3, h4, h5]

/-- Claim C4: with a valid relationship, the swap recommendation sets
exactly `swap_bc` for a Reversed (ACB) verdict; for an Error verdict it
sets `swap_bc` if `ab` and `ca` are near 120°, else `swap_ab` if `bc` and
`ca` are, else `swap_ca` if `ab` and `bc` are, else no flag — using the
same `near_120` predicate as the classifier. -/
theorem c4_swap_recommendation (ab bc ca tolerance : ℚ) :
    pc814_threephase_get_swap_recommendation true
        pc814_sequence_t.PC814_SEQUENCE_ACB ab bc ca tolerance =
      (pc814_status_t.PC814_OK, false, true, false) ∧
    pc814_threephase_get_swap_recommendation true
        pc814_sequence_t.PC814_SEQUENCE_ERROR ab bc ca tolerance =
      (pc814_status_t.PC814_OK,
        if near120spec ab tolerance ∧ near120spec ca tolerance then
          (false, true, false)
        else if near120spec bc tolerance ∧ near120spec ca tolerance then
          (true, false, false)
        else if near120spec ab tolerance ∧ near120spec bc tolerance then
          (false, false, true)
        else (false, false, false)) := by
  constructor
  · simp [pc814_threephase_get_swap_recommendation]
  · by_cases h1 : near120spec ab tolerance <;>
      by_cases h2 : near120spec bc tolerance <;>
      by_cases h3 : near120spec ca tolerance <;>
      simp [pc814_threephase_get_swap_recommendation, is_angle_120_iff,
        h1, h2, h3]

theorem c7_cex_step (m : Nat) (hm2 : m + 1 < 4294967296) :
    pc814_process_capture (c7H m) (c7ev (m + 1)) =
      some (pc814_status_t.PC814_OK, c7H (m + 1)) := by
  have hdelta : tickDelta (1 + 20 * m) (1 + 20 * (m + 1)) = 20 := by
    unfold tickDelta
    rw [if_pos (by omega)]
    omega
  have hval : validate_frequency 50 50 5 = true := by
    simp only [validate_frequency, toInt32]
    norm_num
  have hc : (m + 1) % 4294967296 = m + 1 := Nat.mod_eq_of_lt hm2
  have hs : (20000 * m % 4294967296 + 20000) % 4294967296 =
      20000 * (m + 1) % 4294967296 := by omega
  simp only [pc814_process_capture, c7H, c7ev, hdelta]
  norm_num [hval, updateStatistics, u32, hc, hs]

theorem process_seq_cons (h : pc814_handle_t) (i : CaptureInputs)
    (is : List CaptureInputs) (st : pc814_status_t) (h1 : pc814_handle_t)
    (hstep : pc814_process_capture h i = some (st, h1)) :
    pc814_process_seq h (i :: is) = pc814_process_seq h1 is := by
  conv_lhs => rw [pc814_process_seq, hstep]

theorem c7_cex_run (b : Nat) : ∀ m, 1 ≤ m → m + b < 4294967296 →
    pc814_process_seq (c7H m) (c7evs (m + 1) b) = some (c7H (m + b)) := by
  induction b with
  | zero =>
    intro m hm hb
    simp [c7evs, pc814_process_seq]
  | succ b ih =>
    intro m hm hb
    show pc814_process_seq (c7H m) (c7ev (m + 1) :: c7evs (m + 1 + 1) b) = _
    unfold pc814_process_seq
    rw [c7_cex_step m (by omega)]
    have := ih (m + 1) (by omega) (by omega)
    rw [show m + (b + 1) = m + 1 + b by omega]
    exact this

theorem c7_cex_first :
    pc814_process_capture pc814InitHandle (c7ev 0) =
      some (pc814_status_t.PC814_OK,
        { pc814InitHandle with last_capture_value := 1 }) := by
  rfl

theorem c7_cex_second :
    pc814_process_capture { pc814InitHandle with last_capture_value := 1 }
        (c7ev 1) = some (pc814_status_t.PC814_OK, c7H 1) := by
  have hval : validate_frequency 50 50 5 = true := by
    simp only [validate_frequency, toInt32]
    norm_num
  simp only [pc814_process_capture, pc814InitHandle, c7H, c7ev, tickDelta, u32]
  norm_num [hval, updateStatistics, u32]

set_option maxRecDepth 4000 in
theorem c7_counterexample :
    (pc814_process_seq pc814InitHandle (c7ev 0 :: c7evs 1 214749)).map
        (fun h => (h.period_count, h.statistics.min_period_us,
                   h.statistics.max_period_us, h.statistics.avg_period_us)) =
      some (214749, 20000, 20000, 0) ∧ ¬ ((20000 : Nat) ≤ 0) := by
  constructor
  · have hrun : pc814_process_seq (c7H 1) (c7evs 2 214748) = some (c7H 214749) :=
      c7_cex_run 214748 1 (by norm_num) (by norm_num)
    show (pc814_process_seq pc814InitHandle
        (c7ev 0 :: c7ev 1 :: c7evs 2 214748)).map _ = _
    rw [process_seq_cons _ _ _ _ _ c7_cex_first,
        process_seq_cons _ _ _ _ _ c7_cex_second, hrun]
    norm_num [c7H]
  · decide

theorem mul_length_le_sum (l : List Nat) (m : Nat) (hm : ∀ p ∈ l, m ≤ p) :
    m * l.length ≤ l.sum := by
  induction l with
  | nil => simp
  | cons a t ih =>
    have h1 : m ≤ a := hm a (by simp)
    have h2 : m * t.length ≤ t.sum := ih (fun p hp => hm p (by simp [hp]))
    simp only [List.length_cons, List.sum_cons, Nat.mul_succ]
    rw [Nat.add_comm a t.sum]
    exact Nat.add_le_add h2 h1

theorem sum_le_mul_length (l : List Nat) (m : Nat) (hm : ∀ p ∈ l, p ≤ m) :
    l.sum ≤ m * l.length := by
  induction l with
  | nil => simp
  | cons a t ih =>
    have h1 : a ≤ m := hm a (by simp)
    have h2 : t.sum ≤ m * t.length := ih (fun p hp => hm p (by simp [hp]))
    simp only [List.length_cons, List.sum_cons, Nat.mul_succ]
    rw [Nat.add_comm a t.sum]
    exact Nat.add_le_add h2 h1

theorem GoodState_carry (h hnew : pc814_handle_t) (ps : List Nat) (ninv : Nat)
    (hg : GoodState h ps ninv) (h1 : hnew.statistics = h.statistics)
    (h2 : hnew.period_sum = h.period_sum)
    (h3 : hnew.period_count = h.period_count) :
    GoodState hnew ps ninv := by
  unfold GoodState at *
  rw [h1, h2, h3]
  exact hg

theorem GoodState_delta_valid (h hnew : pc814_handle_t) (ps : List Nat)
    (ninv p : Nat) (f : Nat)
    (hg : GoodState h ps ninv) (hp : 1 ≤ p)
    (hsum : ps.sum + p < 4294967296)
    (hcap : ps.length + ninv + 1 < 4294967296)
    (hstats : hnew.statistics =
      (updateStatistics h.statistics h.period_sum h.period_count p f true).1)
    (hsum2 : hnew.period_sum =
      (updateStatistics h.statistics h.period_sum h.period_count p f true).2.1)
    (hcnt2 : hnew.period_count =
      (updateStatistics h.statistics h.period_sum h.period_count p f true).2.2) :
    GoodState hnew (ps ++ [p]) ninv := by
  obtain ⟨g1, g2, g3, g4, g5, g6, g7, g8, g9, g10⟩ := hg
  have hcnt : u32 (h.period_count + 1) = ps.length + 1 := by
    rw [g4]; unfold u32; omega
  have hsum1 : u32 (h.period_sum + p) = ps.sum + p := by
    rw [g5]; unfold u32; omega
  have htot : u32 (h.statistics.total_zc_count + 1) = ps.length + ninv + 1 := by
    rw [g3]; unfold u32; omega
  have hvalc : u32 (h.statistics.valid_zc_count + 1) = ps.length + 1 := by
    rw [g1]; unfold u32; omega
  simp only [updateStatistics, if_pos] at hstats hsum2 hcnt2
  rw [hcnt, hsum1] at hstats
  rw [hsum1] at hsum2
  rw [hcnt] at hcnt2
  unfold GoodState
  refine ⟨?_, ?_, ?_, ?_, ?_, ?_, ?_, ?_, ?_, ?_⟩
  · rw [hstats]
    simp [hvalc]
  · rw [hstats]
    simpa using g2
  · rw [hstats]
    simp only [List.length_append, List.length_cons, List.length_nil]
    rw [htot]
    omega
  · rw [hcnt2]
    simp
  · rw [hsum2]
    simp
  · rw [hstats]
    simp [Nat.succ_pos]
  · intro hemp
    exact absurd hemp (by simp)
  · intro q hq
    rw [hstats]
    simp only []
    by_cases hps : ps = []
    · obtain ⟨hmin0, hmax0⟩ := g7 hps
      subst hps
      simp only [List.nil_append, List.mem_singleton] at hq
      subst hq
      rw [if_pos (Or.inl hmin0), if_pos (by omega)]
      omega
    · have hminmem := (g9 hps).1
      have hmin1 : 1 ≤ h.statistics.min_period_us := g10 _ hminmem
      rcases List.mem_append.mp hq with hq | hq
      · constructor
        · split_ifs with hc
          · rcases hc with hc | hc
            · omega
            · exact le_of_lt (lt_of_lt_of_le hc ((g8 q hq).1))
          · exact (g8 q hq).1
        · split_ifs with hc
          · exact le_trans (g8 q hq).2 (le_of_lt hc)
          · exact (g8 q hq).2
      · simp only [List.mem_singleton] at hq
        subst hq
        constructor
        · split_ifs with hc
          · exact le_refl q
          · push_neg at hc
            exact hc.2
        · split_ifs with hc
          · exact le_refl q
          · push_neg at hc
            exact hc
  · intro hne
    rw [hstats]
    simp only []
    by_cases hps : ps = []
    · obtain ⟨hmin0, hmax0⟩ := g7 hps
      subst hps
      rw [if_pos (Or.inl hmin0), if_pos (by omega)]
      simp
    · have hminmem := (g9 hps).1
      have hmaxmem := (g9 hps).2
      have hmin1 : 1 ≤ h.statistics.min_period_us := g10 _ hminmem
      constructor
      · split_ifs with hc
        · simp
        · simp only [List.mem_append, List.mem_singleton]
          exact Or.inl hminmem
      · split_ifs with hc
        · simp
        · simp only [List.mem_append, List.mem_singleton]
          exact Or.inl hmaxmem
  · intro q hq
    rcases List.mem_append.mp hq with hq | hq
    · exact g10 q hq
    · simp only [List.mem_singleton] at hq
      subst hq
      exact hp

theorem GoodState_delta_invalid (h hnew : pc814_handle_t) (ps : List Nat)
    (ninv p : Nat) (f : Nat)
    (hg : GoodState h ps ninv)
    (hcap : ps.length + ninv + 1 < 4294967296)
    (hstats : hnew.statistics =
      (updateStatistics h.statistics h.period_sum h.period_count p f false).1)
    (hsum2 : hnew.period_sum =
      (updateStatistics h.statistics h.period_sum h.period_count p f false).2.1)
    (hcnt2 : hnew.period_count =
      (updateStatistics h.statistics h.period_sum h.period_count p f false).2.2) :
    GoodState hnew ps (ninv + 1) := by
  obtain ⟨g1, g2, g3, g4, g5, g6, g7, g8, g9, g10⟩ := hg
  have htot : u32 (h.statistics.total_zc_count + 1) = ps.length + ninv + 1 := by
    rw [g3]; unfold u32; omega
  have hinv : u32 (h.statistics.invalid_zc_count + 1) = ninv + 1 := by
    rw [g2]; unfold u32; omega
  simp only [updateStatistics, if_neg, Bool.false_eq_true, if_false] at hstats hsum2 hcnt2
  unfold GoodState
  refine ⟨?_, ?_, ?_, ?_, ?_, ?_, ?_, ?_, ?_, ?_⟩
  · rw [hstats]
    simpa using g1
  · rw [hstats]
    simpa using hinv
  · rw [hstats]
    simp only []
    rw [htot]
    omega
  · rw [hcnt2]
    exact g4
  · rw [hsum2]
    exact g5
  · rw [hstats]
    simpa using g6
  · intro hemp
    rw [hstats]
    simpa using g7 hemp
  · intro q hq
    rw [hstats]
    simpa using g8 q hq
  · intro hne
    rw [hstats]
    simpa using g9 hne
  · exact g10

theorem c7_step (h : pc814_handle_t) (i : CaptureInputs) (st : pc814_status_t)
    (h1 : pc814_handle_t) (ps : List Nat) (ninv : Nat)
    (hg : GoodState h ps ninv)
    (hrun : pc814_process_capture h i = some (st, h1))
    (hsum : ps.sum + ((captureValidPeriod h i).toList).sum < 4294967296)
    (hcap : ps.length + ninv + 1 < 4294967296) :
    ∃ ninv1,
      (ps ++ (captureValidPeriod h i).toList).length + ninv1 ≤
        ps.length + ninv + 1 ∧
      GoodState h1 (ps ++ (captureValidPeriod h i).toList) ninv1 := by
  by_cases hini : h.initialized = false
  · have hcv : captureValidPeriod h i = none := by
      unfold captureValidPeriod
      rw [if_neg (by simp [hini])]
    unfold pc814_process_capture at hrun
    rw [if_pos hini] at hrun
    simp only [Option.some.injEq, Prod.mk.injEq] at hrun
    obtain ⟨-, rfl⟩ := hrun
    refine ⟨ninv, by simp [hcv], ?_⟩
    simp only [hcv, Option.toList_none, List.append_nil]
    exact hg
  · have hini2 : h.initialized = true := by
      revert hini
      cases h.initialized <;> simp
    by_cases hz : i.capture_value = 0 ∨ i.timer_freq = 0
    · have hcv : captureValidPeriod h i = none := by
        unfold captureValidPeriod
        rw [if_neg]
        rcases hz with hz | hz <;> simp [hz]
      unfold pc814_process_capture at hrun
      rw [if_neg (by simp [hini2]), if_pos hz] at hrun
      simp only [Option.some.injEq, Prod.mk.injEq] at hrun
      obtain ⟨-, rfl⟩ := hrun
      refine ⟨ninv, by simp [hcv], ?_⟩
      simp only [hcv, Option.toList_none, List.append_nil]
      exact hg
    · have hz2 : ¬ (i.capture_value = 0 ∨ i.timer_freq = 0) := hz
      push_neg at hz
      obtain ⟨hz1a, hz1b⟩ := hz
      by_cases hlast : h.last_capture_value ≠ 0
      · -- delta-forming capture
        unfold pc814_process_capture at hrun
        rw [if_neg (by simp [hini2]), if_neg hz2, if_pos hlast] at hrun
        by_cases hp : u32 (tickDelta h.last_capture_value i.capture_value * 1000000) / i.timer_freq = 0
        · rw [if_pos hp] at hrun
          exact absurd hrun (by simp)
        · rw [if_neg hp] at hrun
          simp only [Option.some.injEq, Prod.mk.injEq] at hrun
          obtain ⟨-, rfl⟩ := hrun
          by_cases hv : validate_frequency
              (1000000 / (u32 (tickDelta h.last_capture_value i.capture_value * 1000000) / i.timer_freq))
              h.expected_frequency h.frequency_tolerance = true
          · have hcv : captureValidPeriod h i =
                some (u32 (tickDelta h.last_capture_value i.capture_value * 1000000) / i.timer_freq) := by
              unfold captureValidPeriod
              rw [if_pos ⟨hini2, hz1a, hz1b, hlast⟩, if_pos ⟨hp, hv⟩]
            rw [hcv] at hsum ⊢
            simp only [Option.toList_some, List.sum_cons, List.sum_nil,
              Nat.add_zero] at hsum
            rw [hv]
            refine ⟨ninv, ?_, ?_⟩
            · simp only [Option.toList_some, List.length_append,
                List.length_cons, List.length_nil]
              omega
            · exact GoodState_delta_valid h _ ps ninv
                (u32 (tickDelta h.last_capture_value i.capture_value * 1000000) / i.timer_freq)
                (1000000 / (u32 (tickDelta h.last_capture_value i.capture_value * 1000000) / i.timer_freq)) hg
                (Nat.pos_of_ne_zero hp) hsum hcap rfl rfl rfl
          · have hcv : captureValidPeriod h i = none := by
              unfold captureValidPeriod
              rw [if_pos ⟨hini2, hz1a, hz1b, hlast⟩, if_neg]
              intro hcon
              exact hv hcon.2
            have hvf : validate_frequency
                (1000000 / (u32 (tickDelta h.last_capture_value i.capture_value * 1000000) / i.timer_freq))
                h.expected_frequency h.frequency_tolerance = false := by
              revert hv
              cases validate_frequency
                (1000000 / (u32 (tickDelta h.last_capture_value i.capture_value * 1000000) / i.timer_freq))
                h.expected_frequency h.frequency_tolerance <;> simp
            rw [hcv, hvf]
            simp only [Option.toList_none, List.append_nil]
            refine ⟨ninv + 1, by omega, ?_⟩
            exact GoodState_delta_invalid h _ ps ninv
              (u32 (tickDelta h.last_capture_value i.capture_value * 1000000) / i.timer_freq)
              (1000000 / (u32 (tickDelta h.last_capture_value i.capture_value * 1000000) / i.timer_freq)) hg hcap rfl rfl rfl
      · -- first capture after initialization/reset: no delta formed
        have hcv : captureValidPeriod h i = none := by
          unfold captureValidPeriod
          rw [if_neg]
          push_neg at hlast
          simp [hlast]
        unfold pc814_process_capture at hrun
        rw [if_neg (by simp [hini2]), if_neg hz2, if_neg hlast] at hrun
        simp only [Option.some.injEq, Prod.mk.injEq] at hrun
        obtain ⟨-, rfl⟩ := hrun
        refine ⟨ninv, by simp [hcv], ?_⟩
        simp only [hcv, Option.toList_none, List.append_nil]
        exact GoodState_carry h _ ps ninv hg rfl rfl rfl

theorem c7_run (seq : List CaptureInputs) :
    ∀ (h hfin : pc814_handle_t) (ps : List Nat) (ninv : Nat),
    GoodState h ps ninv →
    pc814_process_seq h seq = some hfin →
    ps.sum + (validPeriodsSeq h seq).sum < 4294967296 →
    ps.length + ninv + seq.length < 4294967296 →
    ∃ ninv1, GoodState hfin (ps ++ validPeriodsSeq h seq) ninv1 := by
  induction seq with
  | nil =>
    intro h hfin ps ninv hg hrun _ _
    simp only [validPeriodsSeq, List.append_nil]
    simp only [pc814_process_seq, Option.some.injEq] at hrun
    subst hrun
    exact ⟨ninv, hg⟩
  | cons i is ih =>
    intro h hfin ps ninv hg hrun hsum hlen
    cases hstep : pc814_process_capture h i with
    | none =>
      unfold pc814_process_seq at hrun
      rw [hstep] at hrun
      exact absurd hrun (by simp)
    | some r =>
      obtain ⟨st, hmid⟩ := r
      rw [process_seq_cons h i is st hmid hstep] at hrun
      have hvp : validPeriodsSeq h (i :: is) =
          (captureValidPeriod h i).toList ++ validPeriodsSeq hmid is := by
        conv_lhs => rw [validPeriodsSeq, hstep]
      rw [hvp] at hsum ⊢
      rw [List.sum_append] at hsum
      have hsum_step : ps.sum + ((captureValidPeriod h i).toList).sum <
          4294967296 := by omega
      have hcap_step : ps.length + ninv + 1 < 4294967296 := by
        simp only [List.length_cons] at hlen
        omega
      obtain ⟨ninv1, hle, hg1⟩ :=
        c7_step h i st hmid ps ninv hg hstep hsum_step hcap_step
      obtain ⟨ninv2, hg2⟩ := ih hmid hfin (ps ++ (captureValidPeriod h i).toList)
        ninv1 hg1 hrun
        (by rw [List.sum_append]; omega)
        (by simp only [List.length_cons] at hlen; omega)
      rw [List.append_assoc] at hg2
      exact ⟨ninv2, hg2⟩

theorem c7_statistics_invariants (seq : List CaptureInputs)
    (hfin : pc814_handle_t)
    (hrun : pc814_process_seq pc814InitHandle seq = some hfin)
    (hsum : (validPeriodsSeq pc814InitHandle seq).sum < 4294967296)
    (hlen : seq.length < 4294967296) :
    (hfin.statistics.valid_zc_count + hfin.statistics.invalid_zc_count =
      hfin.statistics.total_zc_count) ∧
    (hfin.period_count ≠ 0 →
      hfin.statistics.min_period_us ≤ hfin.statistics.avg_period_us ∧
      hfin.statistics.avg_period_us ≤ hfin.statistics.max_period_us) ∧
    hfin.period_count = (validPeriodsSeq pc814InitHandle seq).length ∧
    hfin.statistics.avg_period_us =
      (if (validPeriodsSeq pc814InitHandle seq).length = 0 then 0
       else (validPeriodsSeq pc814InitHandle seq).sum /
         (validPeriodsSeq pc814InitHandle seq).length) := by
  have hg0 : GoodState pc814InitHandle [] 0 := by
    simp [GoodState, pc814InitHandle]
  obtain ⟨ninv1, hg⟩ := c7_run seq pc814InitHandle hfin [] 0 hg0 hrun
    (by simpa using hsum) (by simpa using hlen)
  rw [List.nil_append] at hg
  obtain ⟨g1, g2, g3, g4, g5, g6, g7, g8, g9, g10⟩ := hg
  refine ⟨by omega, ?_, g4, g6⟩
  intro hcnt
  rw [g4] at hcnt
  have hlenpos : 0 < (validPeriodsSeq pc814InitHandle seq).length :=
    Nat.pos_of_ne_zero hcnt
  have hne : validPeriodsSeq pc814InitHandle seq ≠ [] := by
    intro hnil
    rw [hnil] at hlenpos
    simp at hlenpos
  constructor
  · rw [g6, if_neg hcnt]
    refine (Nat.le_div_iff_mul_le hlenpos).mpr ?_
    exact mul_length_le_sum _ _ (fun p hp => (g8 p hp).1)
  · rw [g6, if_neg hcnt]
    have hb : (validPeriodsSeq pc814InitHandle seq).sum ≤
        hfin.statistics.max_period_us *
          (validPeriodsSeq pc814InitHandle seq).length :=
      sum_le_mul_length _ _ (fun p hp => (g8 p hp).2)
    calc (validPeriodsSeq pc814InitHandle seq).sum /
          (validPeriodsSeq pc814InitHandle seq).length ≤
        hfin.statistics.max_period_us *
          (validPeriodsSeq pc814InitHandle seq).length /
          (validPeriodsSeq pc814InitHandle seq).length :=
          Nat.div_le_div_right hb
      _ = hfin.statistics.max_period_us := Nat.mul_div_cancel _ hlenpos

theorem validPeriods_cons (h : pc814_handle_t) (i : CaptureInputs)
    (is : List CaptureInputs) (st : pc814_status_t) (h1 : pc814_handle_t)
    (hstep : pc814_process_capture h i = some (st, h1)) :
    validPeriodsSeq h (i :: is) =
      (captureValidPeriod h i).toList ++ validPeriodsSeq h1 is := by
  conv_lhs => rw [validPeriodsSeq, hstep]

theorem c7_cvp_first : captureValidPeriod pc814InitHandle (c7ev 0) = none := by
  unfold captureValidPeriod pc814InitHandle
  rw [if_neg]
  simp [c7ev]

theorem c7_cvp_second :
    captureValidPeriod { pc814InitHandle with last_capture_value := 1 }
      (c7ev 1) = some 20000 := by
  have hval : validate_frequency 50 50 5 = true := by
    simp only [validate_frequency, toInt32]
    norm_num
  unfold captureValidPeriod
  rw [if_pos (by norm_num [c7ev, pc814InitHandle])]
  simp only [c7ev, pc814InitHandle, tickDelta]
  norm_num [hval, u32]

theorem c7_wseq_valid_periods :
    validPeriodsSeq pc814InitHandle c7wSeq = [20000] := by
  show validPeriodsSeq pc814InitHandle (c7ev 0 :: c7ev 1 :: []) = _
  rw [validPeriods_cons _ _ _ _ _ c7_cex_first,
      validPeriods_cons _ _ _ _ _ c7_cex_second,
      c7_cvp_first, c7_cvp_second]
  rfl

/-- Witness for the amended C7 theorem: a two-call sequence producing one
valid 20000 µs sample, on which all statistics invariants hold. -/
theorem c7_statistics_invariants_witness :
    ((c7H 1).statistics.valid_zc_count + (c7H 1).statistics.invalid_zc_count =
      (c7H 1).statistics.total_zc_count) ∧
    ((c7H 1).period_count ≠ 0 →
      (c7H 1).statistics.min_period_us ≤ (c7H 1).statistics.avg_period_us ∧
      (c7H 1).statistics.avg_period_us ≤ (c7H 1).statistics.max_period_us) ∧
    (c7H 1).period_count = (validPeriodsSeq pc814InitHandle c7wSeq).length ∧
    (c7H 1).statistics.avg_period_us =
      (if (validPeriodsSeq pc814InitHandle c7wSeq).length = 0 then 0
       else (validPeriodsSeq pc814InitHandle c7wSeq).sum /
         (validPeriodsSeq pc814InitHandle c7wSeq).length) :=
  c7_statistics_invariants c7wSeq (c7H 1)
    (by
      show pc814_process_seq pc814InitHandle (c7ev 0 :: c7ev 1 :: []) = _
      rw [process_seq_cons _ _ _ _ _ c7_cex_first,
          process_seq_cons _ _ _ _ _ c7_cex_second]
      rfl)
    (by rw [c7_wseq_valid_periods]; norm_num)
    (by norm_num [c7wSeq])
